import Mathlib

/-!
Verification of the CRM server (Express + Mongoose) against its
natural-language specification.  The data model and the route handlers in
src/server/routes (leads.ts, customers.ts, tasks.ts, users.ts) and
src/server/models are shallowly embedded as pure Lean functions: the
document store is a list of records per collection, a request handler is a
function from the caller identity, the parsed request body/query and the
current store to a response together with the updated store.  Machine
concerns that the claims do not touch (ObjectId internals, BSON dates,
regex search) are modelled by Nat identifiers, Nat timestamps and
case-insensitive substring matching respectively; each such abstraction is
noted where it is made.
-/

namespace CRM

/-- Character comparison by code point, as BSON compares ASCII strings. -/
def charLt (a b : Char) : Bool := decide (a < b)

/-- Lexicographic order on character lists: the order the document store
uses when sorting a string-valued field such as Task.priority. -/
def charListLt : List Char → List Char → Bool
  | [], [] => false
  | [], _ :: _ => true
  | _ :: _, [] => false
  | a :: as, b :: bs => charLt a b || (a == b && charListLt as bs)

/-- Lexicographic string order (BSON string comparison for ASCII data). -/
def strLt (a b : String) : Bool := charListLt a.data b.data

/-- Whitespace test used by trimming (space, tab, newline, return). -/
def isWsp (c : Char) : Bool := c == ' ' || c == '\t' || c == '\n' || c == '\r'

/-- Drop leading and trailing whitespace from a character list. -/
def trimChars (l : List Char) : List Char :=
  ((l.dropWhile isWsp).reverse.dropWhile isWsp).reverse

/-- JavaScript String.prototype.trim / express-validator trim sanitizer. -/
def jsTrim (s : String) : String := String.mk (trimChars s.data)

/-- Prefix test on character lists (helper for substring search). -/
def charsLeadWith : List Char → List Char → Bool
  | [], _ => true
  | _ :: _, [] => false
  | a :: as, b :: bs => a == b && charsLeadWith as bs

/-- Substring test on character lists (helper for substring search). -/
def charsContain (pat : List Char) : List Char → Bool
  | [] => charsLeadWith pat []
  | c :: cs => charsLeadWith pat (c :: cs) || charsContain pat cs

/-- Case-insensitive substring match.  This abstracts the routes' use of
new RegExp(search, 'i') against a text field: the claims under study never
depend on regex metacharacters, only on case-insensitive containment. -/
def containsCI (hay pat : String) : Bool :=
  charsContain (jsTrim pat).toLower.data hay.toLower.data

/-- The length express-validator's isLength checks after the trim
sanitizer has run. -/
def lenBetween (lo hi : Nat) (s : String) : Bool :=
  lo ≤ (jsTrim s).length && (jsTrim s).length ≤ hi

/-- Shallow stand-in for express-validator's isEmail: the claims never
depend on the precise accepted language, only on equality of emails. -/
def emailFormatOk (s : String) : Bool := s.data.contains '@'

/-- User roles (src/server/middleware/auth.ts, models/User.ts). -/
inductive Role
  | admin
  | agent
deriving DecidableEq, Repr

/-- Authenticated caller attached to the request by authMiddleware. -/
structure Caller where
  id : Nat
  role : Role
deriving DecidableEq, Repr

/-- Lead.status enum (src/server/models/Lead.ts). -/
inductive LeadStatus
  | new
  | inProgress
  | closedWon
  | closedLost
deriving DecidableEq, Repr

/-- Task.status enum (src/server/models/Task.ts); opened stands for the
source value "Open". -/
inductive TaskStatus
  | opened
  | inProgress
  | done
deriving DecidableEq, Repr

/-- Task.priority enum (src/server/models/Task.ts). -/
inductive Priority
  | low
  | medium
  | high
deriving DecidableEq, Repr

/-- The string stored in the priority field of a Task document. -/
def priorityStr : Priority → String
  | Priority.low => "Low"
  | Priority.medium => "Medium"
  | Priority.high => "High"

/-- Deal.status enum inside Customer.deals (models/Customer.ts). -/
inductive DealStatus
  | opened
  | won
  | lost
deriving DecidableEq, Repr

/-- Lead document (src/server/models/Lead.ts).  ObjectIds are Nat,
dates are Nat timestamps; createdAt comes from the timestamps option. -/
structure Lead where
  id : Nat
  name : String
  email : String
  phone : String
  status : LeadStatus
  source : String
  assignedAgent : Nat
  notes : Option String
  isArchived : Bool
  convertedToCustomer : Option Nat
  convertedAt : Option Nat
  createdAt : Nat
deriving DecidableEq, Repr

/-- One entry of Customer.notes (models/Customer.ts). -/
structure CustomerNote where
  content : String
  createdBy : Nat
  createdAt : Nat
deriving DecidableEq, Repr

/-- One entry of Customer.deals (models/Customer.ts). -/
structure Deal where
  title : String
  value : Nat
  status : DealStatus
  expectedCloseDate : Nat
  createdAt : Nat
deriving DecidableEq, Repr

/-- Customer document (src/server/models/Customer.ts).  The schema has a
plain (non-unique) index on email. -/
structure Customer where
  id : Nat
  name : String
  company : String
  email : String
  phone : String
  notes : List CustomerNote
  tags : List String
  owner : Nat
  deals : List Deal
  convertedFromLead : Option Nat
  createdAt : Nat
deriving DecidableEq, Repr

/-- Task.relatedTo target kind (models/Task.ts). -/
inductive RelatedType
  | lead
  | customer
deriving DecidableEq, Repr

/-- Task.relatedTo (models/Task.ts). -/
structure RelatedTo where
  type : RelatedType
  id : Nat
deriving DecidableEq, Repr

/-- Task document (src/server/models/Task.ts). -/
structure Task where
  id : Nat
  title : String
  description : Option String
  dueDate : Nat
  status : TaskStatus
  priority : Priority
  relatedTo : RelatedTo
  owner : Nat
  assignedTo : Option Nat
  completedAt : Option Nat
  createdAt : Nat
deriving DecidableEq, Repr

/-- User document.  Modelled from the spec: src/server/models/User.ts is
not among the provided sources; the field list follows spec section 3
(id, email, names, role in admin/agent, isActive) and the uses visible in
the routes and auth middleware.  The password hash is never read by the
claims and is omitted. -/
structure User where
  id : Nat
  email : String
  firstName : String
  lastName : String
  role : Role
  isActive : Bool
deriving DecidableEq, Repr

/-- Activity log entry (src/server/models/Activity.ts).  The free-form
details map (Schema.Types.Mixed) is outside the model; the claims never
read it. -/
structure Activity where
  user : Nat
  action : String
  entityType : String
  entityId : Nat
deriving DecidableEq, Repr

/-- The persistent store: one list per collection. -/
structure DB where
  leads : List Lead
  customers : List Customer
  tasks : List Task
  users : List User
  activities : List Activity
deriving DecidableEq, Repr

/-- Model.findById on each collection. -/
def findLead (leads : List Lead) (lid : Nat) : Option Lead :=
  leads.find? (fun l => l.id == lid)

/-- Model.findById for customers. -/
def findCustomer (customers : List Customer) (cid : Nat) : Option Customer :=
  customers.find? (fun c => c.id == cid)

/-- Model.findById for tasks. -/
def findTask (tasks : List Task) (tid : Nat) : Option Task :=
  tasks.find? (fun t => t.id == tid)

/-- Model.findById for users. -/
def findUser (users : List User) (uid : Nat) : Option User :=
  users.find? (fun u => u.id == uid)

/-- Persisting document.save() after mutating a fetched document: the
stored document with the same id is replaced. -/
def updateLeads (leads : List Lead) (lid : Nat) (l' : Lead) : List Lead :=
  leads.map (fun x => if x.id = lid then l' else x)

/-- Save for customers, as updateLeads. -/
def updateCustomers (customers : List Customer) (cid : Nat) (c' : Customer) : List Customer :=
  customers.map (fun x => if x.id = cid then c' else x)

/-- Save for tasks, as updateLeads. -/
def updateTasks (tasks : List Task) (tid : Nat) (t' : Task) : List Task :=
  tasks.map (fun x => if x.id = tid then t' else x)

/-- Save for users, as updateLeads. -/
def updateUsers (users : List User) (uid : Nat) (u' : User) : List User :=
  users.map (fun x => if x.id = uid then u' else x)

/-!
List endpoints.  Each GET / route parses page (default 1) and limit
(default 20), builds a filter object starting from role-based scoping,
queries the store with filter/sort/skip/limit, and returns the page.
The query records below carry the already-parsed and validated
parameters; an absent optional parameter is none.
-/

/-- Pagination: skip = (page - 1) * limit, then limit. -/
def paginate {α : Type} (page limit : Nat) (l : List α) : List α :=
  (l.drop ((page - 1) * limit)).take limit

/-- Sort key createdAt: -1 used by the Lead list (leads.ts line 68). -/
def leadRecency (a b : Lead) : Prop := b.createdAt ≤ a.createdAt

instance : DecidableRel leadRecency :=
  fun a b => inferInstanceAs (Decidable (b.createdAt ≤ a.createdAt))

/-- Sort key createdAt: -1 used by the Customer list (customers.ts 67). -/
def customerRecency (a b : Customer) : Prop := b.createdAt ≤ a.createdAt

instance : DecidableRel customerRecency :=
  fun a b => inferInstanceAs (Decidable (b.createdAt ≤ a.createdAt))

/-- Sort key dueDate: 1, priority: -1 used by the Task list (tasks.ts
line 89).  The store sorts the string stored in the priority field, so
descending priority is descending lexicographic order on the strings
"Low", "Medium", "High". -/
def taskOrder (a b : Task) : Prop :=
  a.dueDate < b.dueDate ∨
    (a.dueDate = b.dueDate ∧
      strLt (priorityStr a.priority) (priorityStr b.priority) = false)

instance : DecidableRel taskOrder :=
  fun a b => inferInstanceAs (Decidable (_ ∨ _))

/-- Query parameters of GET /leads (leads.ts lines 15-19, 31-32). -/
structure LeadListQuery where
  page : Nat
  limit : Nat
  status : Option LeadStatus
  search : Option String
  assignedAgent : Option Nat
deriving DecidableEq, Repr

/-- The filter object GET /leads builds (leads.ts lines 36-62). -/
structure LeadFilter where
  isArchived : Bool
  assignedAgent : Option Nat
  status : Option LeadStatus
  search : Option String
deriving DecidableEq, Repr

/-- Filter construction of GET /leads, line for line: base
isArchived: false; agent role forces assignedAgent to the caller; a
status parameter filters by status; an assignedAgent parameter is
honored only for admins; a search parameter adds the text clause. -/
def buildLeadFilter (caller : Caller) (q : LeadListQuery) : LeadFilter :=
  let f : LeadFilter :=
    { isArchived := false, assignedAgent := none, status := none, search := none }
  let f := if caller.role = Role.agent then { f with assignedAgent := some caller.id } else f
  let f := match q.status with
    | some s => { f with status := some s }
    | none => f
  let f := match q.assignedAgent with
    | some a => if caller.role = Role.admin then { f with assignedAgent := some a } else f
    | none => f
  match q.search with
  | some s => { f with search := some s }
  | none => f

/-- Whether a Lead document satisfies the built filter (the store's
find semantics: conjunction of the clauses; the search clause matches
any of name, email, phone, source). -/
def leadMatches (f : LeadFilter) (l : Lead) : Bool :=
  l.isArchived == f.isArchived &&
  (match f.assignedAgent with
    | none => true
    | some a => l.assignedAgent == a) &&
  (match f.status with
    | none => true
    | some s => l.status == s) &&
  (match f.search with
    | none => true
    | some s => containsCI l.name s || containsCI l.email s ||
        containsCI l.phone s || containsCI l.source s)

/-- GET /leads: filter, sort by createdAt descending, paginate. -/
def listLeads (caller : Caller) (q : LeadListQuery) (leads : List Lead) : List Lead :=
  paginate q.page q.limit
    (List.insertionSort leadRecency (leads.filter (leadMatches (buildLeadFilter caller q))))

/-- Query parameters of GET /customers (customers.ts lines 14-18). -/
structure CustomerListQuery where
  page : Nat
  limit : Nat
  search : Option String
  tags : Option (List String)
  owner : Option Nat
deriving DecidableEq, Repr

/-- The filter object GET /customers builds (customers.ts 35-61). -/
structure CustomerFilter where
  owner : Option Nat
  tags : Option (List String)
  search : Option String
deriving DecidableEq, Repr

/-- Filter construction of GET /customers: agent role forces owner to
the caller; an owner parameter is honored only for admins; a tags
parameter adds a tags $in clause; search adds the text clause. -/
def buildCustomerFilter (caller : Caller) (q : CustomerListQuery) : CustomerFilter :=
  let f : CustomerFilter := { owner := none, tags := none, search := none }
  let f := if caller.role = Role.agent then { f with owner := some caller.id } else f
  let f := match q.owner with
    | some o => if caller.role = Role.admin then { f with owner := some o } else f
    | none => f
  let f := match q.tags with
    | some ts => { f with tags := some ts }
    | none => f
  match q.search with
  | some s => { f with search := some s }
  | none => f

/-- Whether a Customer satisfies the built filter; the tags $in clause
matches when some stored tag is among the requested ones; search
matches any of name, company, email, phone. -/
def customerMatches (f : CustomerFilter) (c : Customer) : Bool :=
  (match f.owner with
    | none => true
    | some o => c.owner == o) &&
  (match f.tags with
    | none => true
    | some ts => c.tags.any (fun t => ts.contains t)) &&
  (match f.search with
    | none => true
    | some s => containsCI c.name s || containsCI c.company s ||
        containsCI c.email s || containsCI c.phone s)

/-- GET /customers: filter, sort by createdAt descending, paginate. -/
def listCustomers (caller : Caller) (q : CustomerListQuery) (customers : List Customer) :
    List Customer :=
  paginate q.page q.limit
    (List.insertionSort customerRecency
      (customers.filter (customerMatches (buildCustomerFilter caller q))))

/-- Status clause of the Task filter: equality from the status
parameter, or the not-Done clause the overdue parameter installs. -/
inductive StatusCond
  | eqStatus (s : TaskStatus)
  | neDone
deriving DecidableEq, Repr

/-- Due-date clause of the Task filter: the one-day window from the
dueDate parameter, or the strictly-before-now clause from overdue. -/
inductive DueCond
  | window (lo hi : Nat)
  | before (t : Nat)
deriving DecidableEq, Repr

/-- Query parameters of GET /tasks (tasks.ts lines 14-21). -/
structure TaskListQuery where
  page : Nat
  limit : Nat
  status : Option TaskStatus
  priority : Option Priority
  owner : Option Nat
  assignedTo : Option Nat
  dueDate : Option Nat
  overdue : Bool
deriving DecidableEq, Repr

/-- The filter object GET /tasks builds (tasks.ts lines 38-81). -/
structure TaskFilter where
  ownScope : Option Nat
  status : Option StatusCond
  priority : Option Priority
  owner : Option Nat
  assignedTo : Option Nat
  due : Option DueCond
deriving DecidableEq, Repr

/-- Filter construction of GET /tasks, in source order: agent role
installs the owner-or-assignee $or clause; status and priority
parameters filter by equality; owner and assignedTo parameters are
honored only for admins; a dueDate parameter installs a one-day window;
an overdue=true parameter overwrites the due clause with before-now and
the status clause with not-Done (it is written last in the source). -/
def buildTaskFilter (caller : Caller) (now : Nat) (q : TaskListQuery) : TaskFilter :=
  let f : TaskFilter :=
    { ownScope := none, status := none, priority := none,
      owner := none, assignedTo := none, due := none }
  let f := if caller.role = Role.agent then { f with ownScope := some caller.id } else f
  let f := match q.status with
    | some s => { f with status := some (StatusCond.eqStatus s) }
    | none => f
  let f := match q.priority with
    | some p => { f with priority := some p }
    | none => f
  let f := match q.owner with
    | some o => if caller.role = Role.admin then { f with owner := some o } else f
    | none => f
  let f := match q.assignedTo with
    | some a => if caller.role = Role.admin then { f with assignedTo := some a } else f
    | none => f
  let f := match q.dueDate with
    | some d => { f with due := some (DueCond.window d (d + 86400000)) }
    | none => f
  if q.overdue then
    { f with due := some (DueCond.before now), status := some StatusCond.neDone }
  else f

/-- Whether a Task satisfies the built filter. -/
def taskMatches (f : TaskFilter) (t : Task) : Bool :=
  (match f.ownScope with
    | none => true
    | some i => t.owner == i || t.assignedTo == some i) &&
  (match f.status with
    | none => true
    | some (StatusCond.eqStatus s) => t.status == s
    | some StatusCond.neDone => t.status != TaskStatus.done) &&
  (match f.priority with
    | none => true
    | some p => t.priority == p) &&
  (match f.owner with
    | none => true
    | some o => t.owner == o) &&
  (match f.assignedTo with
    | none => true
    | some a => t.assignedTo == some a) &&
  (match f.due with
    | none => true
    | some (DueCond.window lo hi) => decide (lo ≤ t.dueDate) && decide (t.dueDate < hi)
    | some (DueCond.before n) => decide (t.dueDate < n))

/-- GET /tasks: filter, sort by dueDate ascending then the priority
string descending, paginate. -/
def listTasks (caller : Caller) (now : Nat) (q : TaskListQuery) (tasks : List Task) :
    List Task :=
  paginate q.page q.limit
    (List.insertionSort taskOrder (tasks.filter (taskMatches (buildTaskFilter caller now q))))

/-!
Single-record routes.  A handler returns a response and the updated
store.  Response constructors encode the HTTP outcome: ok is the 2xx
body, badRequest the 400 family (validation failures, conflicts,
invalid state transitions, self-protection), notFound 404, forbidden
403.  The message string is the message field of the JSON error body.
-/

/-- Response of a route handler. -/
inductive Resp (α : Type)
  | ok (a : α)
  | badRequest (msg : String)
  | notFound (msg : String)
  | forbidden (msg : String)
deriving DecidableEq, Repr

/-- Activity.create performed by the routes. -/
def mkActivity (callerId : Nat) (action entityType : String) (entityId : Nat) : Activity :=
  { user := callerId, action := action, entityType := entityType, entityId := entityId }

/-- GET /leads/:id (leads.ts lines 91-122): findById, 404 when absent,
403 for an agent who is not the assigned agent, otherwise the lead —
with no isArchived check anywhere on this path. -/
def getLeadById (caller : Caller) (lid : Nat) (db : DB) : Resp Lead :=
  match findLead db.leads lid with
  | none => Resp.notFound "Lead not found"
  | some l =>
    if caller.role = Role.agent ∧ l.assignedAgent ≠ caller.id then
      Resp.forbidden "Access denied"
    else Resp.ok l

/-- Body of PATCH /leads/:id (leads.ts lines 189-197): the validated
optional fields, plus isArchived, which the validator list does not
mention but Object.assign(lead, req.body) copies all the same.  It
stands for the unvalidated schema keys a client may include. -/
structure LeadPatchBody where
  name : Option String
  email : Option String
  phone : Option String
  status : Option LeadStatus
  source : Option String
  notes : Option String
  assignedAgent : Option Nat
  isArchived : Option Bool
deriving DecidableEq, Repr

/-- Validation of PATCH /leads/:id: each field only when present; the
status enum and the assignedAgent id are enforced by the types here. -/
def leadPatchValid (b : LeadPatchBody) : Bool :=
  (match b.name with
    | none => true
    | some s => lenBetween 1 100 s) &&
  (match b.email with
    | none => true
    | some s => emailFormatOk s) &&
  (match b.phone with
    | none => true
    | some s => lenBetween 1 20 s) &&
  (match b.source with
    | none => true
    | some s => lenBetween 1 50 s) &&
  (match b.notes with
    | none => true
    | some s => decide ((jsTrim s).length ≤ 1000))

/-- Object.assign(lead, req.body): every key present in the body is
copied onto the document, the trim sanitizer having run on the string
fields that declared it; absent keys leave the document field as is. -/
def applyLeadPatch (l : Lead) (b : LeadPatchBody) : Lead :=
  { l with
    name := (b.name.map jsTrim).getD l.name
    email := b.email.getD l.email
    phone := (b.phone.map jsTrim).getD l.phone
    status := b.status.getD l.status
    source := (b.source.map jsTrim).getD l.source
    notes := match b.notes with
      | some s => some (jsTrim s)
      | none => l.notes
    assignedAgent := b.assignedAgent.getD l.assignedAgent
    isArchived := b.isArchived.getD l.isArchived }

/-- Duplicate-email check of PATCH /leads/:id (leads.ts 225-237): only
when the body carries an email differing from the stored one, and only
against non-archived leads with a different id. -/
def leadEmailConflict (db : DB) (lead : Lead) (b : LeadPatchBody) : Bool :=
  match b.email with
  | some e =>
    decide (e ≠ lead.email) &&
      (db.leads.any fun x => x.email == e && !x.isArchived && x.id != lead.id)
  | none => false

/-- PATCH /leads/:id (leads.ts lines 187-261): validate, findById (no
isArchived check), agent ownership check, duplicate-email check against
non-archived other leads, Object.assign, save, log activity. -/
def patchLead (caller : Caller) (lid : Nat) (b : LeadPatchBody) (db : DB) : Resp Lead × DB :=
  if !leadPatchValid b then (Resp.badRequest "validation failed", db)
  else match findLead db.leads lid with
  | none => (Resp.notFound "Lead not found", db)
  | some lead =>
    if caller.role = Role.agent ∧ lead.assignedAgent ≠ caller.id then
      (Resp.forbidden "Access denied", db)
    else if leadEmailConflict db lead b then
      (Resp.badRequest "Lead with this email already exists", db)
    else
      let l' := applyLeadPatch lead b
      (Resp.ok l',
        { db with
          leads := updateLeads db.leads lead.id l'
          activities := db.activities ++ [mkActivity caller.id "Lead Updated" "Lead" lead.id] })

/-- Body of POST /leads/:id/convert (leads.ts lines 266-270): company
required with trimmed length 1..100, tags and deals optional arrays
defaulting to empty. -/
structure ConvertBody where
  company : Option String
  tags : List String
  deals : List Deal
deriving DecidableEq, Repr

/-- Validation of the convert body: company present and 1..100 after
trim (express-validator isLength over the trim sanitizer). -/
def convertBodyValid (b : ConvertBody) : Bool :=
  match b.company with
  | none => false
  | some c => lenBetween 1 100 c

/-- The Customer document the conversion creates (leads.ts 307-316):
name, email, phone copied from the Lead; company, tags, deals from the
body; owner the caller; convertedFromLead the Lead id. -/
def convCustomer (caller : Caller) (now cid : Nat) (l : Lead) (b : ConvertBody) : Customer :=
  { id := cid
    name := l.name
    company := jsTrim (b.company.getD "")
    email := l.email
    phone := l.phone
    notes := []
    tags := b.tags
    owner := caller.id
    deals := b.deals
    convertedFromLead := some l.id
    createdAt := now }

/-- The Lead update the conversion performs (leads.ts 321-323). -/
def convLead (l : Lead) (cid now : Nat) : Lead :=
  { l with
    status := LeadStatus.closedWon
    convertedToCustomer := some cid
    convertedAt := some now }

/-- POST /leads/:id/convert (leads.ts lines 264-347): validate the
body, findById (no isArchived check), agent ownership check, reject a
lead already Closed Won or Closed Lost with a 400, otherwise save the
new Customer first, then update the Lead, then log the activity.  No
duplicate-email check is made against existing Customers on this path,
and the Customer schema carries no unique index on email. -/
def convertLead (caller : Caller) (now cid lid : Nat) (b : ConvertBody) (db : DB) :
    Resp (Customer × Lead) × DB :=
  if !convertBodyValid b then (Resp.badRequest "validation failed", db)
  else match findLead db.leads lid with
  | none => (Resp.notFound "Lead not found", db)
  | some lead =>
    if caller.role = Role.agent ∧ lead.assignedAgent ≠ caller.id then
      (Resp.forbidden "Access denied", db)
    else if lead.status = LeadStatus.closedWon ∨ lead.status = LeadStatus.closedLost then
      (Resp.badRequest "Cannot convert closed lead", db)
    else
      let c := convCustomer caller now cid lead b
      let l' := convLead lead cid now
      (Resp.ok (c, l'),
        { db with
          customers := db.customers ++ [c]
          leads := updateLeads db.leads lead.id l'
          activities :=
            db.activities ++ [mkActivity caller.id "Lead Converted to Customer" "Lead" lead.id] })

/-- DELETE /leads/:id (leads.ts lines 350-390): findById, agent
ownership check, set isArchived and save, log activity. -/
def archiveLead (caller : Caller) (lid : Nat) (db : DB) : Resp Unit × DB :=
  match findLead db.leads lid with
  | none => (Resp.notFound "Lead not found", db)
  | some lead =>
    if caller.role = Role.agent ∧ lead.assignedAgent ≠ caller.id then
      (Resp.forbidden "Access denied", db)
    else
      (Resp.ok (),
        { db with
          leads := updateLeads db.leads lead.id { lead with isArchived := true }
          activities := db.activities ++ [mkActivity caller.id "Lead Archived" "Lead" lead.id] })

/-- Body of POST /customers (customers.ts lines 126-133). -/
structure CustomerCreateBody where
  name : String
  company : String
  email : String
  phone : String
  tags : List String
  deals : List Deal
deriving DecidableEq, Repr

/-- Validation of POST /customers. -/
def customerCreateValid (b : CustomerCreateBody) : Bool :=
  lenBetween 1 100 b.name && lenBetween 1 100 b.company &&
    emailFormatOk b.email && lenBetween 1 20 b.phone

/-- POST /customers (customers.ts lines 124-185): validate, reject when
a Customer with the same email already exists, otherwise insert with
owner = caller and log activity. -/
def createCustomer (caller : Caller) (now cid : Nat) (b : CustomerCreateBody) (db : DB) :
    Resp Customer × DB :=
  if !customerCreateValid b then (Resp.badRequest "validation failed", db)
  else if db.customers.any (fun c => c.email == b.email) then
    (Resp.badRequest "Customer with this email already exists", db)
  else
    let c : Customer :=
      { id := cid
        name := jsTrim b.name
        company := jsTrim b.company
        email := b.email
        phone := jsTrim b.phone
        notes := []
        tags := b.tags
        owner := caller.id
        deals := b.deals
        convertedFromLead := none
        createdAt := now }
    (Resp.ok c,
      { db with
        customers := db.customers ++ [c]
        activities := db.activities ++ [mkActivity caller.id "Customer Created" "Customer" cid] })

/-- The note object pushed by POST /customers/:id/notes (customers.ts
297-301): the trimmed content, the caller, the current time. -/
def newNote (content : String) (callerId now : Nat) : CustomerNote :=
  { content := jsTrim content, createdBy := callerId, createdAt := now }

/-- The notes list after the append-then-cap of POST
/customers/:id/notes (customers.ts 297-306): push the new note, then,
when the list exceeds 5 entries, keep the slice of the last 5. -/
def notesAfterAppend (c : Customer) (content : String) (callerId now : Nat) :
    List CustomerNote :=
  let pushed := c.notes ++ [newNote content callerId now]
  if pushed.length > 5 then pushed.drop (pushed.length - 5) else pushed

/-- POST /customers/:id/notes (customers.ts lines 263-328): validate
the content length (1..1000 after trim), findById, agent ownership
check, append the note, cap the list at the 5 most recent, save, log
activity; the response body is the notes list. -/
def addCustomerNote (caller : Caller) (now cid : Nat) (content : String) (db : DB) :
    Resp (List CustomerNote) × DB :=
  if !lenBetween 1 1000 content then (Resp.badRequest "validation failed", db)
  else match findCustomer db.customers cid with
  | none => (Resp.notFound "Customer not found", db)
  | some c =>
    if caller.role = Role.agent ∧ c.owner ≠ caller.id then
      (Resp.forbidden "Access denied", db)
    else
      let notes' := notesAfterAppend c content caller.id now
      (Resp.ok notes',
        { db with
          customers := updateCustomers db.customers c.id { c with notes := notes' }
          activities :=
            db.activities ++ [mkActivity caller.id "Note Added to Customer" "Customer" c.id] })

/-- Optional-name validation shared by the user routes: when present,
trimmed length 1..50. -/
def nameFieldOk (s : Option String) : Bool :=
  match s with
  | none => true
  | some v => lenBetween 1 50 v

/-- Body of PATCH /users/:id (users.ts): the validator list covers
firstName, lastName, role, isActive; role and isActive are enum/boolean
checks the types enforce here. -/
structure UserPatchBody where
  firstName : Option String
  lastName : Option String
  role : Option Role
  isActive : Option Bool
deriving DecidableEq, Repr

/-- Validation of PATCH /users/:id. -/
def userPatchValid (b : UserPatchBody) : Bool :=
  nameFieldOk b.firstName && nameFieldOk b.lastName

/-- Object.assign(user, req.body) for the user routes: present keys
overwrite, absent keys keep the stored value. -/
def applyUserPatch (u : User) (b : UserPatchBody) : User :=
  { u with
    firstName := (b.firstName.map jsTrim).getD u.firstName
    lastName := (b.lastName.map jsTrim).getD u.lastName
    role := b.role.getD u.role
    isActive := b.isActive.getD u.isActive }

/-- PATCH /users/:id (users.ts, admin only): validate, findById, reject
an admin deactivating their own account with a 400 naming the
restriction before any write, otherwise Object.assign, save, log. -/
def patchUser (caller : Caller) (uid : Nat) (b : UserPatchBody) (db : DB) : Resp User × DB :=
  if caller.role ≠ Role.admin then (Resp.forbidden "Insufficient permissions", db)
  else if !userPatchValid b then (Resp.badRequest "validation failed", db)
  else match findUser db.users uid with
  | none => (Resp.notFound "User not found", db)
  | some u =>
    if uid = caller.id ∧ b.isActive = some false then
      (Resp.badRequest "Cannot deactivate your own account", db)
    else
      let u' := applyUserPatch u b
      (Resp.ok u',
        { db with
          users := updateUsers db.users u.id u'
          activities := db.activities ++ [mkActivity caller.id "User Updated" "User" u.id] })

/-- DELETE /users/:id (users.ts, admin only): the self-delete check
runs before the lookup; then findById, findByIdAndDelete, log. -/
def deleteUser (caller : Caller) (uid : Nat) (db : DB) : Resp Unit × DB :=
  if caller.role ≠ Role.admin then (Resp.forbidden "Insufficient permissions", db)
  else if uid = caller.id then (Resp.badRequest "Cannot delete your own account", db)
  else match findUser db.users uid with
  | none => (Resp.notFound "User not found", db)
  | some u =>
    (Resp.ok (),
      { db with
        users := db.users.filter (fun x => x.id != uid)
        activities := db.activities ++ [mkActivity caller.id "User Deleted" "User" u.id] })

/-- Body of PATCH /users/profile/me: the validator list covers only
firstName and lastName, but Object.assign(user, req.body) copies every
schema key present in the body — role and isActive included, standing
for the unvalidated keys a client may send. -/
structure ProfileBody where
  firstName : Option String
  lastName : Option String
  role : Option Role
  isActive : Option Bool
deriving DecidableEq, Repr

/-- Validation of PATCH /users/profile/me: only the two name fields. -/
def profileBodyValid (b : ProfileBody) : Bool :=
  nameFieldOk b.firstName && nameFieldOk b.lastName

/-- Object.assign(user, req.body) for profile/me. -/
def applyProfileBody (u : User) (b : ProfileBody) : User :=
  { u with
    firstName := (b.firstName.map jsTrim).getD u.firstName
    lastName := (b.lastName.map jsTrim).getD u.lastName
    role := b.role.getD u.role
    isActive := b.isActive.getD u.isActive }

/-- PATCH /users/profile/me (users.ts, any authenticated caller):
validate the name fields, load the caller's own record, Object.assign
the whole body, save, log. -/
def patchProfileMe (caller : Caller) (b : ProfileBody) (db : DB) : Resp User × DB :=
  if !profileBodyValid b then (Resp.badRequest "validation failed", db)
  else match findUser db.users caller.id with
  | none => (Resp.notFound "User not found", db)
  | some u =>
    let u' := applyProfileBody u b
    (Resp.ok u',
      { db with
        users := updateUsers db.users u.id u'
        activities := db.activities ++ [mkActivity caller.id "Profile Updated" "User" u.id] })

/-- Body of PATCH /tasks/:id (tasks.ts lines 214-221). -/
structure TaskPatchBody where
  title : Option String
  description : Option String
  dueDate : Option Nat
  status : Option TaskStatus
  priority : Option Priority
  assignedTo : Option Nat
deriving DecidableEq, Repr

/-- Validation of PATCH /tasks/:id: title 1..200 and description up to
1000 when present; the enums and ids are enforced by the types. -/
def taskPatchValid (b : TaskPatchBody) : Bool :=
  (match b.title with
    | none => true
    | some s => lenBetween 1 200 s) &&
  (match b.description with
    | none => true
    | some s => decide ((jsTrim s).length ≤ 1000))

/-- The completedAt key the handler adds to updateData (tasks.ts
257-261), translated branch for branch: when the body sets status to
Done and the task was not Done, the key is set to now; otherwise, when
the body's status field is not the value Done — which includes a body
with no status field at all — the key is set to undefined, which unsets
the stored value on save; only a body whose status is Done on a task
already Done leaves the key absent.  The result is some v when the key
is present with value v, none when absent. -/
def taskPatchCompletedAt (b : TaskPatchBody) (t : Task) (now : Nat) : Option (Option Nat) :=
  if b.status = some TaskStatus.done ∧ t.status ≠ TaskStatus.done then some (some now)
  else if b.status ≠ some TaskStatus.done then some none
  else none

/-- Object.assign(task, updateData) (tasks.ts 251-263): the spread body
plus the conditional completedAt key. -/
def applyTaskPatch (t : Task) (b : TaskPatchBody) (now : Nat) : Task :=
  { t with
    title := (b.title.map jsTrim).getD t.title
    description := match b.description with
      | some s => some (jsTrim s)
      | none => t.description
    dueDate := b.dueDate.getD t.dueDate
    status := b.status.getD t.status
    priority := b.priority.getD t.priority
    assignedTo := match b.assignedTo with
      | some a => some a
      | none => t.assignedTo
    completedAt := match taskPatchCompletedAt b t now with
      | some v => v
      | none => t.completedAt }

/-- PATCH /tasks/:id (tasks.ts lines 212-284): validate, findById,
agent owner-or-assignee check, build updateData, Object.assign, save,
log activity. -/
def patchTask (caller : Caller) (now tid : Nat) (b : TaskPatchBody) (db : DB) :
    Resp Task × DB :=
  if !taskPatchValid b then (Resp.badRequest "validation failed", db)
  else match findTask db.tasks tid with
  | none => (Resp.notFound "Task not found", db)
  | some t =>
    if caller.role = Role.agent ∧ t.owner ≠ caller.id ∧ t.assignedTo ≠ some caller.id then
      (Resp.forbidden "Access denied", db)
    else
      let t' := applyTaskPatch t b now
      (Resp.ok t',
        { db with
          tasks := updateTasks db.tasks t.id t'
          activities := db.activities ++ [mkActivity caller.id "Task Updated" "Task" t.id] })

/-!
Concrete sample data used to instantiate the theorems below on closed
inputs.
-/

/-- Sample agent caller. -/
def wCaller : Caller := { id := 1, role := Role.agent }

/-- Sample admin caller. -/
def wAdmin : Caller := { id := 5, role := Role.admin }

/-- Sample lead assigned to agent 1. -/
def leadA : Lead :=
  { id := 10, name := "Jane Doe", email := "jane@x.com", phone := "555-0100"
    status := LeadStatus.new, source := "Website", assignedAgent := 1, notes := none
    isArchived := false, convertedToCustomer := none, convertedAt := none, createdAt := 100 }

/-- Sample lead assigned to agent 2. -/
def leadB : Lead :=
  { leadA with id := 11, email := "bob@x.com", assignedAgent := 2, createdAt := 101 }

/-- Sample lead already Closed Won. -/
def leadC : Lead :=
  { leadA with
    id := 12, email := "carol@x.com", status := LeadStatus.closedWon, createdAt := 102 }

/-- Sample archived lead (status still New). -/
def leadArch : Lead := { leadA with id := 20, email := "arch@x.com", isArchived := true }

/-- Sample customer owned by agent 1. -/
def custA : Customer :=
  { id := 60, name := "Cust A", company := "ACo", email := "a@co.com", phone := "1"
    notes := [], tags := [], owner := 1, deals := [], convertedFromLead := none
    createdAt := 100 }

/-- Sample customer owned by agent 2. -/
def custB : Customer := { custA with id := 61, email := "b@co.com", owner := 2 }

/-- Sample customer whose email collides with leadA's email. -/
def custDup : Customer := { custA with id := 70, email := "jane@x.com", owner := 5 }

/-- Customer holding five notes already. -/
def custFive : Customer :=
  { custA with
    id := 72
    notes := [{ content := "n1", createdBy := 1, createdAt := 1 },
              { content := "n2", createdBy := 1, createdAt := 2 },
              { content := "n3", createdBy := 1, createdAt := 3 },
              { content := "n4", createdBy := 1, createdAt := 4 },
              { content := "n5", createdBy := 1, createdAt := 5 }] }

/-- Sample task owned by agent 1. -/
def taskA : Task :=
  { id := 30, title := "Call", description := none, dueDate := 100
    status := TaskStatus.opened, priority := Priority.medium
    relatedTo := { type := RelatedType.lead, id := 10 }, owner := 1, assignedTo := none
    completedAt := none, createdAt := 100 }

/-- Sample task owned by agent 2. -/
def taskB : Task := { taskA with id := 31, owner := 2, assignedTo := some 3 }

/-- Done task with a recorded completion time. -/
def taskDone : Task :=
  { taskA with id := 32, owner := 5, status := TaskStatus.done, completedAt := some 50 }

/-- High-priority open task. -/
def taskHigh : Task := { taskA with id := 40, owner := 5, priority := Priority.high }

/-- Medium-priority open task with the same due date as taskHigh. -/
def taskMed : Task := { taskHigh with id := 41, priority := Priority.medium }

/-- Task due earlier than taskHigh. -/
def taskEarly : Task := { taskHigh with id := 42, dueDate := 10 }

/-- Done low-priority task (filtered out by status/priority queries). -/
def taskDoneLow : Task :=
  { taskHigh with id := 43, status := TaskStatus.done, priority := Priority.low }

/-- Sample agent user record (agent 1). -/
def wUser : User :=
  { id := 1, email := "agent@x.com", firstName := "Ann", lastName := "Lee"
    role := Role.agent, isActive := true }

/-- Sample admin user record (admin 5). -/
def wAdminUser : User :=
  { id := 5, email := "admin@x.com", firstName := "Ada", lastName := "Boss"
    role := Role.admin, isActive := true }

/-- Store used by the list-endpoint witnesses. -/
def wDB : DB :=
  { leads := [leadA, leadB], customers := [custA, custB], tasks := [taskA, taskB]
    users := [wUser, wAdminUser], activities := [] }

/-- Store used by the conversion witnesses. -/
def wDB2 : DB :=
  { leads := [leadA, leadC], customers := [], tasks := [], users := [], activities := [] }

/-- Store holding only an archived lead. -/
def wDB3 : DB :=
  { leads := [leadArch], customers := [], tasks := [], users := [], activities := [] }

/-- Store used by the mass-assignment witnesses. -/
def wDB4 : DB :=
  { leads := [leadA], customers := [], tasks := [], users := [wUser], activities := [] }

/-- Store where a customer already holds leadA's email. -/
def wDB5 : DB :=
  { leads := [leadA], customers := [custDup], tasks := [], users := [], activities := [] }

/-- Store used by the note-cap witness. -/
def wDB8 : DB :=
  { leads := [], customers := [custFive], tasks := [], users := [], activities := [] }

/-- Store used by the self-protection witness. -/
def wDB9 : DB :=
  { leads := [], customers := [], tasks := [], users := [wAdminUser], activities := [] }

/-- Store used by the completedAt evidence. -/
def wDB7 : DB :=
  { leads := [], customers := [], tasks := [taskDone, taskA], users := [], activities := [] }

/-- Default Lead list query (page 1, limit 20, no filters). -/
def qLead0 : LeadListQuery :=
  { page := 1, limit := 20, status := none, search := none, assignedAgent := none }

/-- Default Customer list query. -/
def qCust0 : CustomerListQuery :=
  { page := 1, limit := 20, search := none, tags := none, owner := none }

/-- Default Task list query. -/
def qTask0 : TaskListQuery :=
  { page := 1, limit := 20, status := none, priority := none, owner := none
    assignedTo := none, dueDate := none, overdue := false }

/-- Convert body supplying the company "Acme". -/
def wBody : ConvertBody := { company := some "Acme", tags := [], deals := [] }

/-- Convert body with the company missing. -/
def wBadBody : ConvertBody := { company := none, tags := [], deals := [] }

/-- Profile body an agent could send to make themselves admin. -/
def pbRole : ProfileBody :=
  { firstName := none, lastName := none, role := some Role.admin, isActive := none }

/-- Lead patch body setting only the unvalidated isArchived key. -/
def lbArch : LeadPatchBody :=
  { name := none, email := none, phone := none, status := none, source := none
    notes := none, assignedAgent := none, isArchived := some true }

/-- Lead patch body renaming the lead. -/
def lbName : LeadPatchBody :=
  { name := some "Janet", email := none, phone := none, status := none, source := none
    notes := none, assignedAgent := none, isArchived := none }

/-- Task patch body carrying only a title (no status key). -/
def tbTitle : TaskPatchBody :=
  { title := some "Renamed", description := none, dueDate := none, status := none
    priority := none, assignedTo := none }

/-- Task patch body setting status to Done. -/
def tbDone : TaskPatchBody := { tbTitle with title := none, status := some TaskStatus.done }

/-- Task patch body setting status to In Progress. -/
def tbProg : TaskPatchBody :=
  { tbTitle with title := none, status := some TaskStatus.inProgress }

/-- User patch body deactivating the account. -/
def ubDeact : UserPatchBody :=
  { firstName := none, lastName := none, role := none, isActive := some false }

/-- Customer create body reusing leadA's email. -/
def cbDup : CustomerCreateBody :=
  { name := "New", company := "NewCo", email := "jane@x.com", phone := "2"
    tags := [], deals := [] }

/-!
Helper lemmas about the list endpoints.
-/

/-- Membership in a returned Lead page implies the built filter holds. -/
theorem mem_listLeads_matches {caller : Caller} {q : LeadListQuery} {leads : List Lead}
    {l : Lead} (h : l ∈ listLeads caller q leads) :
    leadMatches (buildLeadFilter caller q) l = true := by
  unfold listLeads paginate at h
  have h1 := List.drop_subset _ _ (List.take_subset _ _ h)
  rw [List.mem_insertionSort] at h1
  exact (List.mem_filter.mp h1).2

/-- Membership in a returned Customer page implies the filter holds. -/
theorem mem_listCustomers_matches {caller : Caller} {q : CustomerListQuery}
    {customers : List Customer} {c : Customer} (h : c ∈ listCustomers caller q customers) :
    customerMatches (buildCustomerFilter caller q) c = true := by
  unfold listCustomers paginate at h
  have h1 := List.drop_subset _ _ (List.take_subset _ _ h)
  rw [List.mem_insertionSort] at h1
  exact (List.mem_filter.mp h1).2

/-- Membership in a returned Task page implies the filter holds. -/
theorem mem_listTasks_matches {caller : Caller} {now : Nat} {q : TaskListQuery}
    {tasks : List Task} {t : Task} (h : t ∈ listTasks caller now q tasks) :
    taskMatches (buildTaskFilter caller now q) t = true := by
  unfold listTasks paginate at h
  have h1 := List.drop_subset _ _ (List.take_subset _ _ h)
  rw [List.mem_insertionSort] at h1
  exact (List.mem_filter.mp h1).2

/-- For an agent the Lead filter pins assignedAgent to the caller. -/
theorem buildLeadFilter_agent {caller : Caller} (h : caller.role = Role.agent)
    (q : LeadListQuery) : (buildLeadFilter caller q).assignedAgent = some caller.id := by
  unfold buildLeadFilter
  cases q.status <;> cases q.assignedAgent <;> cases q.search <;> simp [h]

/-- For an agent the Customer filter pins owner to the caller. -/
theorem buildCustomerFilter_agent {caller : Caller} (h : caller.role = Role.agent)
    (q : CustomerListQuery) : (buildCustomerFilter caller q).owner = some caller.id := by
  unfold buildCustomerFilter
  cases q.owner <;> cases q.tags <;> cases q.search <;> simp [h]

/-- For an agent the Task filter keeps the owner-or-assignee clause. -/
theorem buildTaskFilter_agent {caller : Caller} {now : Nat} (h : caller.role = Role.agent)
    (q : TaskListQuery) : (buildTaskFilter caller now q).ownScope = some caller.id := by
  unfold buildTaskFilter
  cases q.status <;> cases q.priority <;> cases q.owner <;> cases q.assignedTo <;>
    cases q.dueDate <;> cases q.overdue <;> simp [h]

/-- For an agent the Lead filter ignores the assignedAgent parameter. -/
theorem buildLeadFilter_agent_indep {caller : Caller} (h : caller.role = Role.agent)
    (q : LeadListQuery) (a a' : Option Nat) :
    buildLeadFilter caller { q with assignedAgent := a } =
      buildLeadFilter caller { q with assignedAgent := a' } := by
  unfold buildLeadFilter
  cases a <;> cases a' <;> simp [h]

/-- For an agent the Customer filter ignores the owner parameter. -/
theorem buildCustomerFilter_agent_indep {caller : Caller} (h : caller.role = Role.agent)
    (q : CustomerListQuery) (o o' : Option Nat) :
    buildCustomerFilter caller { q with owner := o } =
      buildCustomerFilter caller { q with owner := o' } := by
  unfold buildCustomerFilter
  cases o <;> cases o' <;> simp [h]

/-- For an agent the Task filter ignores owner and assignedTo. -/
theorem buildTaskFilter_agent_indep {caller : Caller} {now : Nat}
    (h : caller.role = Role.agent) (q : TaskListQuery) (o o' a a' : Option Nat) :
    buildTaskFilter caller now { q with owner := o, assignedTo := a } =
      buildTaskFilter caller now { q with owner := o', assignedTo := a' } := by
  unfold buildTaskFilter
  cases o <;> cases o' <;> cases a <;> cases a' <;> simp [h]

/-- A Lead matching a filter with a pinned assignedAgent is assigned to
that agent. -/
theorem leadMatches_assigned {f : LeadFilter} {l : Lead} {a : Nat}
    (hf : f.assignedAgent = some a) (h : leadMatches f l = true) : l.assignedAgent = a := by
  unfold leadMatches at h
  rw [hf] at h
  simp only [Bool.and_eq_true] at h
  simpa using h.1.1.2

/-- A Customer matching a filter with a pinned owner is owned by it. -/
theorem customerMatches_owner {f : CustomerFilter} {c : Customer} {o : Nat}
    (hf : f.owner = some o) (h : customerMatches f c = true) : c.owner = o := by
  unfold customerMatches at h
  rw [hf] at h
  simp only [Bool.and_eq_true] at h
  simpa using h.1.1

/-- A Task matching a filter with the owner-or-assignee clause is owned
by or assigned to that user. -/
theorem taskMatches_scope {f : TaskFilter} {t : Task} {i : Nat}
    (hf : f.ownScope = some i) (h : taskMatches f t = true) :
    t.owner = i ∨ t.assignedTo = some i := by
  unfold taskMatches at h
  rw [hf] at h
  simp only [Bool.and_eq_true] at h
  simpa using h.1.1.1.1.1

/-- C1: for every authenticated caller with role agent, the Lead,
Customer and Task list endpoints return only records the agent owns or
is assigned to (Leads: assignedAgent = caller; Customers: owner =
caller; Tasks: owner = caller or assignedTo = caller), and the result
is independent of any assignedAgent / owner / assignedTo parameter the
agent supplies: two requests differing only in those parameters return
the same records. -/
theorem agent_list_scoping (caller : Caller) (db : DB) (hrole : caller.role = Role.agent) :
    (∀ (q : LeadListQuery) (l : Lead),
        l ∈ listLeads caller q db.leads → l.assignedAgent = caller.id) ∧
    (∀ (q : LeadListQuery) (a a' : Option Nat),
        listLeads caller { q with assignedAgent := a } db.leads =
          listLeads caller { q with assignedAgent := a' } db.leads) ∧
    (∀ (q : CustomerListQuery) (c : Customer),
        c ∈ listCustomers caller q db.customers → c.owner = caller.id) ∧
    (∀ (q : CustomerListQuery) (o o' : Option Nat),
        listCustomers caller { q with owner := o } db.customers =
          listCustomers caller { q with owner := o' } db.customers) ∧
    (∀ (now : Nat) (q : TaskListQuery) (t : Task),
        t ∈ listTasks caller now q db.tasks →
          t.owner = caller.id ∨ t.assignedTo = some caller.id) ∧
    (∀ (now : Nat) (q : TaskListQuery) (o o' a a' : Option Nat),
        listTasks caller now { q with owner := o, assignedTo := a } db.tasks =
          listTasks caller now { q with owner := o', assignedTo := a' } db.tasks) := by
  refine ⟨?_, ?_, ?_, ?_, ?_, ?_⟩
  · intro q l hmem
    exact leadMatches_assigned (buildLeadFilter_agent hrole q) (mem_listLeads_matches hmem)
  · intro q a a'
    unfold listLeads
    rw [buildLeadFilter_agent_indep hrole q a a']
  · intro q c hmem
    exact customerMatches_owner (buildCustomerFilter_agent hrole q)
      (mem_listCustomers_matches hmem)
  · intro q o o'
    unfold listCustomers
    rw [buildCustomerFilter_agent_indep hrole q o o']
  · intro now q t hmem
    exact taskMatches_scope (buildTaskFilter_agent hrole q) (mem_listTasks_matches hmem)
  · intro now q o o' a a'
    unfold listTasks
    rw [buildTaskFilter_agent_indep hrole q o o' a a']

/-- Witness for C1 at a concrete agent, store and queries: agent 1 sees
only its own records, and supplying different owner filters leaves the
result unchanged. -/
theorem agent_list_scoping_witness :
    leadA.assignedAgent = wCaller.id ∧
    listLeads wCaller { qLead0 with assignedAgent := some 2 } wDB.leads =
      listLeads wCaller { qLead0 with assignedAgent := some 3 } wDB.leads ∧
    custA.owner = wCaller.id ∧
    listCustomers wCaller { qCust0 with owner := some 2 } wDB.customers =
      listCustomers wCaller { qCust0 with owner := some 3 } wDB.customers ∧
    (taskA.owner = wCaller.id ∨ taskA.assignedTo = some wCaller.id) ∧
    listTasks wCaller 0 { qTask0 with owner := some 2, assignedTo := some 2 } wDB.tasks =
      listTasks wCaller 0 { qTask0 with owner := some 3, assignedTo := some 3 } wDB.tasks := by
  obtain ⟨h1, h2, h3, h4, h5, h6⟩ := agent_list_scoping wCaller wDB rfl
  exact ⟨h1 qLead0 leadA (by decide), h2 qLead0 (some 2) (some 3),
    h3 qCust0 custA (by decide), h4 qCust0 (some 2) (some 3),
    h5 0 qTask0 taskA (by decide), h6 0 qTask0 (some 2) (some 3) (some 2) (some 3)⟩

/-- C2: for every Lead whose status is New or In Progress, the convert
route (scope access, valid company) appends exactly one new Customer
whose name, email and phone are copied from the Lead and whose
convertedFromLead is the Lead's id, and rewrites the Lead to Closed Won
with convertedToCustomer the new Customer's id and convertedAt set; for
a Lead already Closed Won or Closed Lost it answers a 400 invalid-state
error and writes nothing. -/
theorem convert_lead_spec (caller : Caller) (now cid lid : Nat) (b : ConvertBody) (db : DB)
    (l : Lead) (hfind : findLead db.leads lid = some l)
    (hbody : convertBodyValid b = true)
    (hscope : caller.role = Role.agent → l.assignedAgent = caller.id) :
    ((l.status = LeadStatus.new ∨ l.status = LeadStatus.inProgress) →
      convertLead caller now cid lid b db =
        (Resp.ok (convCustomer caller now cid l b, convLead l cid now),
          { db with
            customers := db.customers ++ [convCustomer caller now cid l b]
            leads := updateLeads db.leads l.id (convLead l cid now)
            activities := db.activities ++
              [mkActivity caller.id "Lead Converted to Customer" "Lead" l.id] }) ∧
      (convCustomer caller now cid l b).name = l.name ∧
      (convCustomer caller now cid l b).email = l.email ∧
      (convCustomer caller now cid l b).phone = l.phone ∧
      (convCustomer caller now cid l b).convertedFromLead = some l.id ∧
      (convCustomer caller now cid l b).id = cid ∧
      (convLead l cid now).status = LeadStatus.closedWon ∧
      (convLead l cid now).convertedToCustomer = some cid ∧
      (convLead l cid now).convertedAt = some now) ∧
    ((l.status = LeadStatus.closedWon ∨ l.status = LeadStatus.closedLost) →
      convertLead caller now cid lid b db =
        (Resp.badRequest "Cannot convert closed lead", db)) := by
  have hsc : ¬(caller.role = Role.agent ∧ l.assignedAgent ≠ caller.id) := by
    rintro ⟨h1, h2⟩
    exact h2 (hscope h1)
  constructor
  · intro hst
    have hterm : ¬(l.status = LeadStatus.closedWon ∨ l.status = LeadStatus.closedLost) := by
      rcases hst with h | h <;> rw [h] <;> simp
    refine ⟨?_, rfl, rfl, rfl, rfl, rfl, rfl, rfl, rfl⟩
    simp [convertLead, hfind, hbody, hsc, hterm]
  · intro hst
    simp [convertLead, hfind, hbody, hsc, hst]

/-- Witness for C2: agent-assigned lead leadA (status New) converted by
the admin produces the copied customer and the Closed Won lead, and the
already-closed leadC is rejected with no writes. -/
theorem convert_lead_spec_witness :
    (convertLead wAdmin 200 50 10 wBody wDB2 =
      (Resp.ok (convCustomer wAdmin 200 50 leadA wBody, convLead leadA 50 200),
        { wDB2 with
          customers := wDB2.customers ++ [convCustomer wAdmin 200 50 leadA wBody]
          leads := updateLeads wDB2.leads leadA.id (convLead leadA 50 200)
          activities := wDB2.activities ++
            [mkActivity wAdmin.id "Lead Converted to Customer" "Lead" leadA.id] }) ∧
      (convCustomer wAdmin 200 50 leadA wBody).name = leadA.name ∧
      (convCustomer wAdmin 200 50 leadA wBody).email = leadA.email ∧
      (convCustomer wAdmin 200 50 leadA wBody).phone = leadA.phone ∧
      (convCustomer wAdmin 200 50 leadA wBody).convertedFromLead = some leadA.id ∧
      (convCustomer wAdmin 200 50 leadA wBody).id = 50 ∧
      (convLead leadA 50 200).status = LeadStatus.closedWon ∧
      (convLead leadA 50 200).convertedToCustomer = some 50 ∧
      (convLead leadA 50 200).convertedAt = some 200) ∧
    convertLead wAdmin 200 50 12 wBody wDB2 =
      (Resp.badRequest "Cannot convert closed lead", wDB2) := by
  refine ⟨?_, ?_⟩
  · exact (convert_lead_spec wAdmin 200 50 10 wBody wDB2 leadA (by decide) (by decide)
      (fun h => absurd h (by decide))).1 (Or.inl (by decide))
  · exact (convert_lead_spec wAdmin 200 50 12 wBody wDB2 leadC (by decide) (by decide)
      (fun h => absurd h (by decide))).2 (Or.inl (by decide))

/-- C3 evidence: the routes do not treat an archived Lead as absent.
With the store holding only the archived leadArch (archived, status
New): the detail route returns it with a 200 instead of a 404; the
update route accepts a rename; the convert route converts it; only the
default list excludes it.  The first three conjuncts contradict the
claim; the last is its one true part. -/
theorem archived_lead_still_reachable :
    getLeadById wAdmin 20 wDB3 = Resp.ok leadArch ∧
    (patchLead wAdmin 20 lbName wDB3).1 = Resp.ok (applyLeadPatch leadArch lbName) ∧
    (applyLeadPatch leadArch lbName).name = "Janet" ∧
    (convertLead wAdmin 300 60 20 wBody wDB3).1 =
      Resp.ok (convCustomer wAdmin 300 60 leadArch wBody, convLead leadArch 60 300) ∧
    (convertLead wAdmin 300 60 20 wBody wDB3).2.customers =
      [convCustomer wAdmin 300 60 leadArch wBody] ∧
    listLeads wAdmin qLead0 wDB3.leads = [] := by
  refine ⟨by decide, by decide, by decide, by decide, by decide, by decide⟩

/-- C4: PATCH /users/profile/me copies every key present in the body
onto the stored User before saving — role and isActive included, though
only firstName and lastName are validated — while absent keys keep
their prior values; and PATCH /leads/:id applies the same
copy-all-body-keys pattern, so the unvalidated isArchived key is copied
onto the Lead when present. -/
theorem profile_and_lead_mass_assignment :
    (∀ (caller : Caller) (db : DB) (b : ProfileBody) (u : User),
      findUser db.users caller.id = some u →
      profileBodyValid b = true →
      patchProfileMe caller b db =
        (Resp.ok (applyProfileBody u b),
          { db with
            users := updateUsers db.users u.id (applyProfileBody u b)
            activities := db.activities ++
              [mkActivity caller.id "Profile Updated" "User" u.id] }) ∧
      (applyProfileBody u b).role = b.role.getD u.role ∧
      (applyProfileBody u b).isActive = b.isActive.getD u.isActive ∧
      (b.role = none → (applyProfileBody u b).role = u.role) ∧
      (b.isActive = none → (applyProfileBody u b).isActive = u.isActive) ∧
      (b.firstName = none → (applyProfileBody u b).firstName = u.firstName) ∧
      (b.lastName = none → (applyProfileBody u b).lastName = u.lastName)) ∧
    (∀ (caller : Caller) (db : DB) (lid : Nat) (b : LeadPatchBody) (l : Lead),
      findLead db.leads lid = some l →
      leadPatchValid b = true →
      (caller.role = Role.agent → l.assignedAgent = caller.id) →
      leadEmailConflict db l b = false →
      patchLead caller lid b db =
        (Resp.ok (applyLeadPatch l b),
          { db with
            leads := updateLeads db.leads l.id (applyLeadPatch l b)
            activities := db.activities ++
              [mkActivity caller.id "Lead Updated" "Lead" l.id] }) ∧
      (applyLeadPatch l b).isArchived = b.isArchived.getD l.isArchived) := by
  constructor
  · intro caller db b u hfind hvalid
    refine ⟨?_, ?_, ?_, ?_, ?_, ?_, ?_⟩
    · simp [patchProfileMe, hfind, hvalid]
    · cases hb : b.role <;> simp [applyProfileBody, hb]
    · cases hb : b.isActive <;> simp [applyProfileBody, hb]
    · intro hb; simp [applyProfileBody, hb]
    · intro hb; simp [applyProfileBody, hb]
    · intro hb; simp [applyProfileBody, hb]
    · intro hb; simp [applyProfileBody, hb]
  · intro caller db lid b l hfind hvalid hscope hconf
    have hsc : ¬(caller.role = Role.agent ∧ l.assignedAgent ≠ caller.id) := by
      rintro ⟨h1, h2⟩
      exact h2 (hscope h1)
    refine ⟨?_, ?_⟩
    · simp [patchLead, hfind, hvalid, hsc, hconf]
    · cases hb : b.isArchived <;> simp [applyLeadPatch, hb]

/-- Witness for C4: agent 1, whose stored role is agent, turns
themselves into an admin through profile/me, and sets isArchived on
their lead through the lead update. -/
theorem profile_and_lead_mass_assignment_witness :
    (applyProfileBody wUser pbRole).role = Role.admin ∧
    (patchProfileMe wCaller pbRole wDB4).1 = Resp.ok (applyProfileBody wUser pbRole) ∧
    (applyLeadPatch leadA lbArch).isArchived = true ∧
    (patchLead wCaller 10 lbArch wDB4).1 = Resp.ok (applyLeadPatch leadA lbArch) := by
  have h1 := profile_and_lead_mass_assignment.1 wCaller wDB4 pbRole wUser
    (by decide) (by decide)
  have h2 := profile_and_lead_mass_assignment.2 wCaller wDB4 10 lbArch leadA
    (by decide) (by decide) (fun _ => by decide) (by decide)
  refine ⟨by simpa using h1.2.1, by rw [h1.1], by simpa using h2.2, by rw [h2.1]⟩

/-- C5 evidence: direct creation rejects a duplicate email, but the
conversion path performs no duplicate check (and the schema has no
unique index), so converting leadA — whose email equals custDup's —
leaves two Customers with the same email in the store.  The claimed
invariant fails. -/
theorem customer_email_uniqueness_broken :
    (createCustomer wAdmin 400 71 cbDup wDB5).1 =
      Resp.badRequest "Customer with this email already exists" ∧
    (convertLead wAdmin 400 72 10 wBody wDB5).1 =
      Resp.ok (convCustomer wAdmin 400 72 leadA wBody, convLead leadA 72 400) ∧
    ((convertLead wAdmin 400 72 10 wBody wDB5).2.customers.filter
        (fun c => c.email == "jane@x.com")).length = 2 := by
  refine ⟨by decide, by decide, by decide⟩

/-- C6: the conversion creates the Customer before touching the Lead,
and when the Customer data fails validation (the company missing or of
invalid length) the route answers 400 before reading the store, so the
Lead — and the whole store — is unchanged on that path. -/
theorem convert_validation_failure_frames_lead (caller : Caller) (now cid lid : Nat)
    (b : ConvertBody) (db : DB) (hb : convertBodyValid b = false) :
    convertLead caller now cid lid b db = (Resp.badRequest "validation failed", db) ∧
    (convertLead caller now cid lid b db).2.leads = db.leads := by
  constructor <;> simp [convertLead, hb]

/-- Witness for C6: a convert body with no company leaves the store —
leadA included — untouched. -/
theorem convert_validation_failure_frames_lead_witness :
    convertBodyValid wBadBody = false ∧
    convertLead wAdmin 1 2 10 wBadBody wDB2 = (Resp.badRequest "validation failed", wDB2) ∧
    (convertLead wAdmin 1 2 10 wBadBody wDB2).2.leads = wDB2.leads := by
  have h := convert_validation_failure_frames_lead wAdmin 1 2 10 wBadBody wDB2 (by decide)
  exact ⟨by decide, h.1, h.2⟩

/-- C7 evidence, on concrete tasks: setting status to Done on a
non-Done task records a completion time; setting it to another value
clears it; but a body carrying no status field at all also clears it
(the handler's else-branch fires because undefined differs from the
value Done), where the claim requires the prior value to be kept —
taskDone enters with completedAt = some 50 and leaves with none after a
title-only update. -/
theorem task_completedAt_behavior :
    (applyTaskPatch taskA tbDone 999).completedAt = some 999 ∧
    (patchTask wAdmin 999 30 tbDone wDB7).1 = Resp.ok (applyTaskPatch taskA tbDone 999) ∧
    (applyTaskPatch taskDone tbProg 999).completedAt = none ∧
    taskDone.completedAt = some 50 ∧
    tbTitle.status = none ∧
    (applyTaskPatch taskDone tbTitle 999).completedAt = none ∧
    (patchTask wAdmin 999 32 tbTitle wDB7).2.tasks =
      [{ taskDone with title := "Renamed", completedAt := none }, taskA] := by
  refine ⟨by decide, by decide, by decide, by decide, by decide, by decide, by decide⟩

/-- Helper: the capped notes list is the suffix of the pushed list that
keeps at most the 5 most recent entries. -/
theorem notesAfterAppend_eq_drop (c : Customer) (content : String) (i now : Nat) :
    notesAfterAppend c content i now =
      (c.notes ++ [newNote content i now]).drop (c.notes.length + 1 - 5) := by
  unfold notesAfterAppend
  simp only [List.length_append, List.length_singleton]
  rcases Nat.lt_or_ge 5 (c.notes.length + 1) with h | h
  · rw [if_pos h]
  · rw [if_neg (by omega)]
    have h0 : c.notes.length + 1 - 5 = 0 := by omega
    rw [h0, List.drop_zero]

/-- Helper: length of the capped notes list. -/
theorem notesAfterAppend_length (c : Customer) (content : String) (i now : Nat) :
    (notesAfterAppend c content i now).length = min (c.notes.length + 1) 5 := by
  rw [notesAfterAppend_eq_drop]
  simp only [List.length_drop, List.length_append, List.length_singleton]
  omega

/-- C8: appending a note with content of valid length adds the entry
(content, createdBy = caller, createdAt = now) at the end and truncates
to the 5 most recent, dropping from the front; a Customer holding 5
notes ends with exactly 5: the 4 newest old ones plus the new one. -/
theorem add_note_caps_at_five (caller : Caller) (now cid : Nat) (content : String)
    (db : DB) (c : Customer)
    (hfind : findCustomer db.customers cid = some c)
    (hscope : caller.role = Role.agent → c.owner = caller.id)
    (hlen : lenBetween 1 1000 content = true) :
    addCustomerNote caller now cid content db =
      (Resp.ok (notesAfterAppend c content caller.id now),
        { db with
          customers := updateCustomers db.customers c.id
            { c with notes := notesAfterAppend c content caller.id now }
          activities := db.activities ++
            [mkActivity caller.id "Note Added to Customer" "Customer" c.id] }) ∧
    notesAfterAppend c content caller.id now =
      (c.notes ++ [newNote content caller.id now]).drop (c.notes.length + 1 - 5) ∧
    (notesAfterAppend c content caller.id now).length = min (c.notes.length + 1) 5 ∧
    (c.notes.length = 5 →
      notesAfterAppend c content caller.id now =
        c.notes.drop 1 ++ [newNote content caller.id now]) := by
  have hsc : ¬(caller.role = Role.agent ∧ c.owner ≠ caller.id) := by
    rintro ⟨h1, h2⟩
    exact h2 (hscope h1)
  refine ⟨?_, notesAfterAppend_eq_drop c content caller.id now,
    notesAfterAppend_length c content caller.id now, ?_⟩
  · simp [addCustomerNote, hfind, hsc, hlen]
  · intro h5
    rw [notesAfterAppend_eq_drop, h5]
    have h1 : (5 : Nat) + 1 - 5 = 1 := rfl
    rw [h1, List.drop_append_of_le_length (by omega)]

/-- Witness for C8: appending a 6th note to custFive (which holds 5)
leaves exactly 5 notes: the 4 newest old ones and the new entry. -/
theorem add_note_caps_at_five_witness :
    custFive.notes.length = 5 ∧
    notesAfterAppend custFive "n6" wAdmin.id 900 =
      custFive.notes.drop 1 ++ [newNote "n6" wAdmin.id 900] ∧
    (notesAfterAppend custFive "n6" wAdmin.id 900).length = min (custFive.notes.length + 1) 5 ∧
    addCustomerNote wAdmin 900 72 "n6" wDB8 =
      (Resp.ok (notesAfterAppend custFive "n6" wAdmin.id 900),
        { wDB8 with
          customers := updateCustomers wDB8.customers custFive.id
            { custFive with notes := notesAfterAppend custFive "n6" wAdmin.id 900 }
          activities := wDB8.activities ++
            [mkActivity wAdmin.id "Note Added to Customer" "Customer" custFive.id] }) := by
  have h := add_note_caps_at_five wAdmin 900 72 "n6" wDB8 custFive
    (by decide) (fun hr => absurd hr (by decide)) (by decide)
  exact ⟨by decide, h.2.2.2 (by decide), h.2.2.1, h.1⟩

/-- C9: an admin asking to deactivate their own account (isActive =
false on their own id) or to delete their own account receives the 400
naming the restriction — distinct from the generic forbidden — and the
store is unchanged on both paths. -/
theorem admin_self_protection (caller : Caller) (db : DB) (b : UserPatchBody) (u : User)
    (hadmin : caller.role = Role.admin)
    (hvalid : userPatchValid b = true)
    (hfind : findUser db.users caller.id = some u)
    (hdeact : b.isActive = some false) :
    patchUser caller caller.id b db =
      (Resp.badRequest "Cannot deactivate your own account", db) ∧
    deleteUser caller caller.id db =
      (Resp.badRequest "Cannot delete your own account", db) := by
  constructor
  · simp [patchUser, hadmin, hvalid, hfind, hdeact]
  · simp [deleteUser, hadmin]

/-- Witness for C9: admin 5 against their own record in wDB9. -/
theorem admin_self_protection_witness :
    patchUser wAdmin wAdmin.id ubDeact wDB9 =
      (Resp.badRequest "Cannot deactivate your own account", wDB9) ∧
    deleteUser wAdmin wAdmin.id wDB9 =
      (Resp.badRequest "Cannot delete your own account", wDB9) :=
  admin_self_protection wAdmin wDB9 ubDeact wAdminUser rfl (by decide) (by decide) rfl

/-- C10 evidence: the Task list sorts by dueDate ascending and then by
the stored priority string descending, which is lexicographic — so with
equal due dates the Medium task precedes the High task, where the claim
requires High before Medium before Low.  The other conjuncts show the
true parts: dueDate ascending, and exact status/priority filtering. -/
theorem task_list_sort_lexicographic :
    strLt "High" "Medium" = true ∧
    taskHigh.dueDate = taskMed.dueDate ∧
    listTasks wAdmin 0 qTask0 [taskHigh, taskMed] = [taskMed, taskHigh] ∧
    listTasks wAdmin 0 qTask0 [taskHigh, taskEarly] = [taskEarly, taskHigh] ∧
    listTasks wAdmin 0
      { qTask0 with status := some TaskStatus.opened, priority := some Priority.high }
      [taskHigh, taskMed, taskDoneLow] = [taskHigh] := by
  refine ⟨by decide, by decide, by decide, by decide, by decide⟩

end CRM
